import Mathlib

/-!
Verification of the idempotency / distributed-locking protocol implemented in
`src/ms-reservations/src/redis/redis.service.ts` (class `RedisService`).

The Redis store is modelled as a partial map from string keys to entries
(value plus the TTL the entry was written with, normalised to milliseconds).
Each Redis command used by the service (`GET`, `SET ... PX ... NX`, `SETEX`,
`DEL`, and the Lua compare-and-delete script run through `EVAL`) is one atomic
operation on that map.  JavaScript string truthiness (`if (existingValue)`)
is modelled explicitly: the empty string is falsy.

`checkAndLock` is embedded twice:
* `checkAndLock` — a direct sequential translation, which also returns the
  list of store operations performed (so "waits once", "re-reads exactly
  once", "performs no write" are provable as trace facts);
* `stepCAL` — a small-step machine with one state per `await` point, used to
  reason about two concurrent callers interleaving on a shared store
  (`raceRun`).
`runCAL_eq_checkAndLock` proves the two agree when a caller runs without
interference.
-/

namespace MsYa

/-- One Redis entry: the stored string value and the TTL it was written with,
in milliseconds (`none` for writes without expiry). -/
structure Entry where
  value : String
  ttlMs : Option Nat
deriving DecidableEq, Repr

/-- The Redis keyspace: a partial map from keys to entries. -/
abbrev Store := String → Option Entry

/-- The store with no keys. -/
def emptyStore : Store := fun _ => none

/-- `GET key`: the stored value, if any (TTL is not observable through GET). -/
def rget (s : Store) (k : String) : Option String :=
  (s k).map Entry.value

/-- `SET key value PX ttl NX`: atomically write `value` iff `key` is absent;
returns the updated store and whether the write happened
(`redis.set(lockKey, lockValue, "PX", this.lockTtlMs, "NX")`). -/
def rsetNxPx (s : Store) (k v : String) (ttlMs : Nat) : Store × Bool :=
  match s k with
  | some _ => (s, false)
  | none => (fun j => if j = k then some ⟨v, some ttlMs⟩ else s j, true)

/-- `SETEX key ttlSeconds value`: unconditional write with expiry in seconds
(`redis.setex(idempotencyKey, this.ttlSeconds, reservationId)`). -/
def rsetex (s : Store) (k : String) (ttlSeconds : Nat) (v : String) : Store :=
  fun j => if j = k then some ⟨v, some (ttlSeconds * 1000)⟩ else s j

/-- `DEL key` (`redis.del(lockKey)`). -/
def rdel (s : Store) (k : String) : Store :=
  fun j => if j = k then none else s j

/-- JavaScript truthiness of a Redis GET result: `null` and the empty string
are falsy, every other string is truthy. -/
def truthy : Option String → Bool
  | none => false
  | some v => !(v == "")

/-- `checkAgain || undefined`: a falsy value becomes `undefined`. -/
def orUndefined (o : Option String) : Option String :=
  if truthy o then o else none

/-- The lock TTL: `private readonly lockTtlMs: number = 5000`. -/
def lockTtlMs : Nat := 5000

/-- Default completion TTL: `IDEMPOTENCY_TTL_SECONDS || 86400`. -/
def defaultTtlSeconds : Nat := 86400

/-- `` `reservation_key:${key}` `` — where the service keeps completion
records. -/
def idempotencyKey (key : String) : String := "reservation_key:" ++ key

/-- `` `lock:${key}` `` — where the service keeps lock records. -/
def lockKey (key : String) : String := "lock:" ++ key

/-- The result type of `checkAndLock`
(`interface IdempotencyResult { isDuplicate; existingReservationId?; lockAcquired? }`). -/
structure IdempotencyResult where
  isDuplicate : Bool
  existingReservationId : Option String
  lockAcquired : Option Bool
deriving DecidableEq, Repr

/-- The `LockAcquired` outcome: `{ isDuplicate: false, lockAcquired: true }`. -/
def lockAcqRes : IdempotencyResult := ⟨false, none, some true⟩

/-- The `Contended` outcome: lock not acquired and no completion found after
the backoff wait. -/
def contendedRes : IdempotencyResult := ⟨false, none, some false⟩

/-- The `Duplicate(v)` outcome. -/
def dupRes (v : String) : IdempotencyResult := ⟨true, some v, some false⟩

/-- One atomic store operation, as recorded in an execution trace. -/
inductive RedisOp where
  | get (key : String) (result : Option String)
  | setNxPx (key value : String) (ttlMs : Nat) (ok : Bool)
  | setex (key : String) (ttlSeconds : Nat) (value : String)
  | del (key : String)
  | evalCad (key value : String) (deleted : Bool)
  | sleep (ms : Nat)
deriving DecidableEq, Repr

/-- The Lua script in `releaseLock`, run via `EVAL` as a single atomic unit:
`if redis.call("get", KEYS[1]) == ARGV[1] then return redis.call("del", KEYS[1]) else return 0 end`. -/
def cadScript (s : Store) (k v : String) : Store × Nat :=
  if rget s k = some v then (rdel s k, 1) else (s, 0)

/-- `releaseLock(lockKey, lockValue)`: runs the compare-and-delete script and
reports `result === 1`. -/
def releaseLock (s : Store) (lockKey lockValue : String) : Store × Bool :=
  let r := cadScript s lockKey lockValue
  (r.1, r.2 == 1)

/-- `checkAndLock(key)`, sequential semantics (no interference between its
store operations).  The lock value `` `${Date.now()}-${Math.random()...}` ``
is nondeterministic, so it is taken as the argument `lockValue`.  Besides the
final store and result, the trace of atomic operations is returned. -/
def checkAndLock (s : Store) (key lockValue : String) :
    Store × IdempotencyResult × List RedisOp :=
  let ik := idempotencyKey key
  let lk := lockKey key
  -- PASO 1: fast check, `if (existingValue)`
  let existingValue := rget s ik
  if truthy existingValue then
    (s, ⟨true, existingValue, some false⟩, [.get ik existingValue])
  else
    -- PASO 2: `SET lockKey lockValue PX lockTtlMs NX`
    let p := rsetNxPx s lk lockValue lockTtlMs
    if p.2 then
      -- PASO 3: double check under the lock
      let doubleCheck := rget p.1 ik
      if truthy doubleCheck then
        let q := releaseLock p.1 lk lockValue
        (q.1, ⟨true, doubleCheck, some false⟩,
          [.get ik existingValue, .setNxPx lk lockValue lockTtlMs true,
            .get ik doubleCheck, .evalCad lk lockValue q.2])
      else
        (p.1, ⟨false, none, some true⟩,
          [.get ik existingValue, .setNxPx lk lockValue lockTtlMs true,
            .get ik doubleCheck])
    else
      -- contention: `await this.sleep(100)` then one re-read
      let checkAgain := rget s ik
      (s, ⟨truthy checkAgain, orUndefined checkAgain, some false⟩,
        [.get ik existingValue, .setNxPx lk lockValue lockTtlMs false,
          .sleep 100, .get ik checkAgain])

/-- Outcome of a fallible call: either the final store, or the store at the
point where a Redis command raised (the error propagates to the caller). -/
inductive StoreOutcome where
  | ok (s : Store)
  | err (s : Store)

/-- The store carried by an outcome. -/
def StoreOutcome.store : StoreOutcome → Store
  | .ok s => s
  | .err s => s

/-- Whether the call completed without a store error. -/
def StoreOutcome.isOk : StoreOutcome → Bool
  | .ok _ => true
  | .err _ => false

/-- `confirmReservation(key, reservationId)`: `SETEX` the completion record
with the configured TTL, then `DEL` the lock.  `setexOk` / `delOk` model
whether each awaited Redis command succeeds; a failed `await` rejects the
promise there, so nothing after it runs. -/
def confirmReservation (ttlSeconds : Nat) (s : Store) (key reservationId : String)
    (setexOk delOk : Bool) : StoreOutcome :=
  let ik := idempotencyKey key
  let lk := lockKey key
  if setexOk then
    let s1 := rsetex s ik ttlSeconds reservationId
    if delOk then .ok (rdel s1 lk) else .err s1
  else .err s

/-- `rollbackLock(key)`: a plain `DEL` of the lock key (no token argument,
no compare). -/
def rollbackLock (s : Store) (key : String) : Store :=
  rdel s (lockKey key)

/-!
### Small-step machine for `checkAndLock`

One machine state per `await` point of `checkAndLock`; each step performs
exactly one atomic store operation (or the sleep, which touches nothing).
`stepCAL` is the same control flow as `checkAndLock`, factored so that other
processes may act on the store between two steps.
-/

/-- Program points of `checkAndLock`:
* `start` — about to run the fast-path `GET`;
* `tryLock` — fast path saw nothing truthy, about to run `SET ... NX`;
* `afterFail` — `SET NX` failed, about to `sleep(100)`;
* `recheck` — slept, about to re-`GET` the completion record;
* `doubleCheck` — lock acquired, about to re-`GET` the completion record;
* `releasing v` — double check found `v`, about to run `releaseLock`;
* `done r` — returned `r`. -/
inductive CState where
  | start
  | tryLock
  | afterFail
  | recheck
  | doubleCheck
  | releasing (found : String)
  | done (r : IdempotencyResult)
deriving DecidableEq, Repr

/-- One atomic step of `checkAndLock(key)` run with lock value `tok`. -/
def stepCAL (key tok : String) : CState → Store → CState × Store × List RedisOp
  | .start, s =>
    let g := rget s (idempotencyKey key)
    if truthy g then (.done ⟨true, g, some false⟩, s, [.get (idempotencyKey key) g])
    else (.tryLock, s, [.get (idempotencyKey key) g])
  | .tryLock, s =>
    let p := rsetNxPx s (lockKey key) tok lockTtlMs
    if p.2 then (.doubleCheck, p.1, [.setNxPx (lockKey key) tok lockTtlMs true])
    else (.afterFail, s, [.setNxPx (lockKey key) tok lockTtlMs false])
  | .afterFail, s => (.recheck, s, [.sleep 100])
  | .recheck, s =>
    let g := rget s (idempotencyKey key)
    (.done ⟨truthy g, orUndefined g, some false⟩, s, [.get (idempotencyKey key) g])
  | .doubleCheck, s =>
    match rget s (idempotencyKey key) with
    | some v =>
      if v == "" then (.done ⟨false, none, some true⟩, s, [.get (idempotencyKey key) (some v)])
      else (.releasing v, s, [.get (idempotencyKey key) (some v)])
    | none => (.done ⟨false, none, some true⟩, s, [.get (idempotencyKey key) none])
  | .releasing v, s =>
    let q := releaseLock s (lockKey key) tok
    (.done ⟨true, some v, some false⟩, q.1, [.evalCad (lockKey key) tok q.2])
  | .done r, s => (.done r, s, [])

/-- Run the machine for (at most) `n` steps without interference. -/
def runCAL (key tok : String) : Nat → CState → Store → CState × Store × List RedisOp
  | 0, st, s => (st, s, [])
  | n + 1, st, s =>
    match st with
    | .done r => (.done r, s, [])
    | st =>
      let p := stepCAL key tok st s
      let q := runCAL key tok n p.1 p.2.1
      (q.1, q.2.1, p.2.2 ++ q.2.2)

/-- Two callers A and B racing `checkAndLock` on the same key, each with its
own lock value and program point, over the shared store. -/
structure RaceConfig where
  a : CState
  b : CState
  s : Store

/-- One interleaving step: `true` lets caller A take its next atomic step,
`false` lets caller B. -/
def raceStep (key tokA tokB : String) (c : RaceConfig) (w : Bool) : RaceConfig :=
  if w then
    let p := stepCAL key tokA c.a c.s
    ⟨p.1, c.b, p.2.1⟩
  else
    let p := stepCAL key tokB c.b c.s
    ⟨c.a, p.1, p.2.1⟩

/-- Run a whole interleaving (schedule) of the two callers. -/
def raceRun (key tokA tokB : String) (c : RaceConfig) (sched : List Bool) : RaceConfig :=
  sched.foldl (raceStep key tokA tokB) c

/-- Swap the two callers of a race configuration. -/
def RaceConfig.swap (c : RaceConfig) : RaceConfig := ⟨c.b, c.a, c.s⟩

/-- The caller has not yet attempted the lock. -/
def PreS (x : CState) : Prop := x = .start ∨ x = .tryLock

/-- The caller has acquired the lock (and, if finished, returned
`lockAcquired: true`). -/
def AcqS (x : CState) : Prop := x = .doubleCheck ∨ x = .done lockAcqRes

/-- The caller failed the lock attempt (and, if finished, returned the
contended result). -/
def FailS (x : CState) : Prop := x = .afterFail ∨ x = .recheck ∨ x = .done contendedRes

/-- The caller did not acquire the lock (yet, or at all). -/
def OtherS (x : CState) : Prop := PreS x ∨ FailS x

/-- Invariant of two `checkAndLock` callers racing on a key with no
completion record. -/
def RaceInv (key : String) (c : RaceConfig) : Prop :=
  c.s (idempotencyKey key) = none ∧
  ((c.s (lockKey key) = none ∧ PreS c.a ∧ PreS c.b) ∨
    ((c.s (lockKey key)).isSome ∧ AcqS c.a ∧ OtherS c.b) ∨
    ((c.s (lockKey key)).isSome ∧ AcqS c.b ∧ OtherS c.a))

/-!
### Concrete stores used by witnesses and counterexamples
-/

/-- A store whose only key is the completion record `reservation_key:k`
holding `res-1`. -/
def storeCompleted : Store :=
  fun j => if j = idempotencyKey "k" then some ⟨"res-1", some 86400000⟩ else none

/-- A store whose completion record for `k` holds the empty string (falsy in
JavaScript). -/
def storeEmptyCompletion : Store :=
  fun j => if j = idempotencyKey "k" then some ⟨"", some 9000⟩ else none

/-- A store whose only key is the lock record `lock:k`, held with token
`B`. -/
def storeLockedB : Store :=
  fun j => if j = lockKey "k" then some ⟨"B", some 5000⟩ else none

/-- A store holding both the completion record `res-1` and a lock held with
token `tokA` for key `k`. -/
def storeCompletedLockedA : Store :=
  fun j =>
    if j = idempotencyKey "k" then some ⟨"res-1", some 86400000⟩
    else if j = lockKey "k" then some ⟨"tokA", some 5000⟩
    else none

/-- A store where the completion record for `k` holds the empty string while
another process holds the lock with token `B`. -/
def storeLockedEmptyCompletion : Store :=
  fun j =>
    if j = idempotencyKey "k" then some ⟨"", some 9000⟩
    else if j = lockKey "k" then some ⟨"B", some 5000⟩
    else none

/-- A store where the completion record for `k` holds the empty string while
this caller holds the lock with token `tok` (the double-check scenario). -/
def storeEmptyCompletionLockedTok : Store :=
  fun j =>
    if j = idempotencyKey "k" then some ⟨"", some 9000⟩
    else if j = lockKey "k" then some ⟨"tok", some 5000⟩
    else none

/-!
## Theorems

### Basic facts
-/

theorem idempotencyKey_ne_lockKey (key : String) :
    idempotencyKey key ≠ lockKey key := by
  intro h
  have hl := congrArg String.length h
  have h1 : "reservation_key:".length = 16 := rfl
  have h2 : "lock:".length = 5 := rfl
  simp only [idempotencyKey, lockKey, String.length_append, h1, h2] at hl
  omega

theorem rget_congr {s : Store} {k : String} (h : s k = none) : rget s k = none := by
  simp [rget, h]

/-!
### Characterisation of single machine steps

The lemmas assuming `s (idempotencyKey key) = none` serve the race argument:
during a race of two `checkAndLock` callers nobody writes the completion
record, so that assumption holds throughout. -/

theorem stepCAL_start {key tok : String} {s : Store}
    (hik : s (idempotencyKey key) = none) :
    stepCAL key tok .start s = (.tryLock, s, [.get (idempotencyKey key) none]) := by
  simp [stepCAL, rget, hik, truthy]

theorem stepCAL_tryLock_free {key tok : String} {s : Store}
    (hlk : s (lockKey key) = none) :
    stepCAL key tok .tryLock s =
      (.doubleCheck,
        fun j => if j = lockKey key then some ⟨tok, some lockTtlMs⟩ else s j,
        [.setNxPx (lockKey key) tok lockTtlMs true]) := by
  simp [stepCAL, rsetNxPx, hlk]

theorem stepCAL_tryLock_held {key tok : String} {s : Store} {e : Entry}
    (hlk : s (lockKey key) = some e) :
    stepCAL key tok .tryLock s =
      (.afterFail, s, [.setNxPx (lockKey key) tok lockTtlMs false]) := by
  simp [stepCAL, rsetNxPx, hlk]

theorem stepCAL_afterFail {key tok : String} {s : Store} :
    stepCAL key tok .afterFail s = (.recheck, s, [.sleep 100]) := by
  simp [stepCAL]

theorem stepCAL_recheck_none {key tok : String} {s : Store}
    (hik : s (idempotencyKey key) = none) :
    stepCAL key tok .recheck s =
      (.done contendedRes, s, [.get (idempotencyKey key) none]) := by
  simp [stepCAL, rget, hik, truthy, orUndefined, contendedRes]

theorem stepCAL_doubleCheck_none {key tok : String} {s : Store}
    (hik : s (idempotencyKey key) = none) :
    stepCAL key tok .doubleCheck s =
      (.done lockAcqRes, s, [.get (idempotencyKey key) none]) := by
  simp [stepCAL, rget, hik, lockAcqRes]

theorem stepCAL_done {key tok : String} {s : Store} {r : IdempotencyResult} :
    stepCAL key tok (.done r) s = (.done r, s, []) := by
  simp [stepCAL]

/-!
### The race invariant and its preservation
-/

theorem raceInv_init {key : String} {s0 : Store}
    (hik : s0 (idempotencyKey key) = none) (hlk : s0 (lockKey key) = none) :
    RaceInv key ⟨.start, .start, s0⟩ := by
  exact ⟨hik, Or.inl ⟨hlk, Or.inl rfl, Or.inl rfl⟩⟩

theorem raceStep_false_swap (key tokA tokB : String) (c : RaceConfig) :
    raceStep key tokA tokB c false = (raceStep key tokB tokA c.swap true).swap := by
  simp [raceStep, RaceConfig.swap]

theorem raceInv_swap {key : String} {c : RaceConfig} (h : RaceInv key c) :
    RaceInv key c.swap := by
  obtain ⟨h1, h2⟩ := h
  exact ⟨h1, by tauto⟩

theorem raceInv_step_a (key tokA tokB : String) (c : RaceConfig)
    (h : RaceInv key c) : RaceInv key (raceStep key tokA tokB c true) := by
  obtain ⟨a, b, s⟩ := c
  obtain ⟨hik, hcase⟩ := h
  have hne := idempotencyKey_ne_lockKey key
  simp only [raceStep, if_true]
  rcases hcase with ⟨hlk, ha, hb⟩ | ⟨hlk, ha, hb⟩ | ⟨hlk, ha, hb⟩
  · -- nobody holds the lock; both callers are before their lock attempt
    rcases ha with rfl | rfl
    · rw [stepCAL_start hik]
      exact ⟨hik, Or.inl ⟨hlk, Or.inr rfl, hb⟩⟩
    · rw [stepCAL_tryLock_free hlk]
      refine ⟨?_, Or.inr (Or.inl ⟨?_, Or.inl rfl, Or.inl hb⟩)⟩
      · simpa [if_neg hne] using hik
      · simp
  · -- caller A holds the lock
    rcases ha with rfl | rfl
    · rw [stepCAL_doubleCheck_none hik]
      exact ⟨hik, Or.inr (Or.inl ⟨hlk, Or.inr rfl, hb⟩)⟩
    · rw [stepCAL_done]
      exact ⟨hik, Or.inr (Or.inl ⟨hlk, Or.inr rfl, hb⟩)⟩
  · -- caller B holds the lock; A is on the non-acquiring side
    rcases hb with (rfl | rfl) | (rfl | rfl | rfl)
    · rw [stepCAL_start hik]
      exact ⟨hik, Or.inr (Or.inr ⟨hlk, ha, Or.inl (Or.inr rfl)⟩)⟩
    · obtain ⟨e, he⟩ := Option.isSome_iff_exists.mp hlk
      rw [stepCAL_tryLock_held he]
      exact ⟨hik, Or.inr (Or.inr ⟨hlk, ha, Or.inr (Or.inl rfl)⟩)⟩
    · rw [stepCAL_afterFail]
      exact ⟨hik, Or.inr (Or.inr ⟨hlk, ha, Or.inr (Or.inr (Or.inl rfl))⟩)⟩
    · rw [stepCAL_recheck_none hik]
      exact ⟨hik, Or.inr (Or.inr ⟨hlk, ha, Or.inr (Or.inr (Or.inr rfl))⟩)⟩
    · rw [stepCAL_done]
      exact ⟨hik, Or.inr (Or.inr ⟨hlk, ha, Or.inr (Or.inr (Or.inr rfl))⟩)⟩

theorem raceInv_step (key tokA tokB : String) (c : RaceConfig) (w : Bool)
    (h : RaceInv key c) : RaceInv key (raceStep key tokA tokB c w) := by
  cases w
  · rw [raceStep_false_swap]
    exact raceInv_swap (raceInv_step_a key tokB tokA c.swap (raceInv_swap h))
  · exact raceInv_step_a key tokA tokB c h

theorem raceInv_run (key tokA tokB : String) (sched : List Bool) (c : RaceConfig)
    (h : RaceInv key c) : RaceInv key (raceRun key tokA tokB c sched) := by
  induction sched generalizing c with
  | nil => exact h
  | cons w ws ih =>
    exact ih (raceStep key tokA tokB c w) (raceInv_step key tokA tokB c w h)

theorem preS_not_done {x : CState} (h : PreS x) (r : IdempotencyResult) :
    x ≠ .done r := by
  rcases h with rfl | rfl <;> simp

theorem otherS_not_lockAcq {x : CState} (h : OtherS x) : x ≠ .done lockAcqRes := by
  rcases h with (rfl | rfl) | (rfl | rfl | rfl) <;> decide

theorem otherS_done {x : CState} {r : IdempotencyResult} (h : OtherS x)
    (hd : x = .done r) : r = contendedRes := by
  rcases h with (rfl | rfl) | (rfl | rfl | rfl) <;> simp_all

theorem acqS_done {x : CState} {r : IdempotencyResult} (h : AcqS x)
    (hd : x = .done r) : r = lockAcqRes := by
  rcases h with rfl | rfl <;> simp_all

/-!
### Claim C1 — mutual exclusion of racing `checkAndLock` callers
-/

/-- **C1.** If two callers race `checkAndLock` on one key (starting from a
store holding neither a completion record nor a lock record for that key),
then under every interleaving of their atomic store operations never do both
receive `LockAcquired`; and whenever both have returned, exactly one of them
received `LockAcquired` while the other received `Duplicate` or `Contended`
(here in fact `Contended`), never `LockAcquired`. -/
theorem checkAndLock_race_exactly_one
    (key tokA tokB : String) (s0 : Store) (sched : List Bool)
    (hik : s0 (idempotencyKey key) = none) (hlk : s0 (lockKey key) = none) :
    (¬ ((raceRun key tokA tokB ⟨.start, .start, s0⟩ sched).a = .done lockAcqRes ∧
        (raceRun key tokA tokB ⟨.start, .start, s0⟩ sched).b = .done lockAcqRes)) ∧
    ∀ ra rb,
      (raceRun key tokA tokB ⟨.start, .start, s0⟩ sched).a = .done ra →
      (raceRun key tokA tokB ⟨.start, .start, s0⟩ sched).b = .done rb →
      (ra = lockAcqRes ∧ rb ≠ lockAcqRes ∧ (rb.isDuplicate = true ∨ rb = contendedRes)) ∨
      (rb = lockAcqRes ∧ ra ≠ lockAcqRes ∧ (ra.isDuplicate = true ∨ ra = contendedRes)) := by
  have hinv := raceInv_run key tokA tokB sched ⟨.start, .start, s0⟩ (raceInv_init hik hlk)
  obtain ⟨-, hcase⟩ := hinv
  constructor
  · rintro ⟨haD, hbD⟩
    rcases hcase with ⟨-, ha, -⟩ | ⟨-, -, hb⟩ | ⟨-, -, ha⟩
    · exact preS_not_done ha lockAcqRes haD
    · exact otherS_not_lockAcq hb hbD
    · exact otherS_not_lockAcq ha haD
  · intro ra rb haD hbD
    rcases hcase with ⟨-, ha, -⟩ | ⟨-, ha, hb⟩ | ⟨-, hb, ha⟩
    · exact absurd haD (preS_not_done ha ra)
    · refine Or.inl ⟨acqS_done ha haD, ?_, Or.inr (otherS_done hb hbD)⟩
      rw [otherS_done hb hbD]
      decide
    · refine Or.inr ⟨acqS_done hb hbD, ?_, Or.inr (otherS_done ha haD)⟩
      rw [otherS_done ha haD]
      decide

theorem checkAndLock_race_exactly_one_witness :
    (lockAcqRes = lockAcqRes ∧ contendedRes ≠ lockAcqRes ∧
      (contendedRes.isDuplicate = true ∨ contendedRes = contendedRes)) ∨
    (contendedRes = lockAcqRes ∧ lockAcqRes ≠ lockAcqRes ∧
      (lockAcqRes.isDuplicate = true ∨ lockAcqRes = contendedRes)) :=
  (checkAndLock_race_exactly_one "k" "tokA" "tokB" emptyStore
      [true, true, true, false, false, false, false] rfl rfl).2
    lockAcqRes contendedRes (by decide) (by decide)

/-!
### Claim C7 — the fast path
-/

/-- **C7, counterexample.** A CompletionRecord can be present while
`checkAndLock` does not return `Duplicate` and does write to the store:
`if (existingValue)` uses JavaScript truthiness, so a stored empty string is
treated as absent — the call proceeds to acquire (and write) the lock and
returns `lockAcquired: true`. -/
theorem checkAndLock_fast_path_cex :
    storeEmptyCompletion (idempotencyKey "k") = some ⟨"", some 9000⟩ ∧
    (checkAndLock storeEmptyCompletion "k" "tok").2.1.isDuplicate = false ∧
    (checkAndLock storeEmptyCompletion "k" "tok").2.1 = lockAcqRes ∧
    (checkAndLock storeEmptyCompletion "k" "tok").1 (lockKey "k")
      = some ⟨"tok", some 5000⟩ := by
  decide

/-- **C7 (amended).** For every key whose CompletionRecord is present with a
non-empty result identifier, `checkAndLock` returns `Duplicate` with the
stored identifier immediately on the first read — the store is unchanged and
the trace is that single `GET`: no lock attempt, no write. -/
theorem checkAndLock_fast_path (s : Store) (key tok v : String) (t : Option Nat)
    (hik : s (idempotencyKey key) = some ⟨v, t⟩) (hv : v ≠ "") :
    checkAndLock s key tok =
      (s, dupRes v, [.get (idempotencyKey key) (some v)]) := by
  simp [checkAndLock, rget, hik, truthy, hv, dupRes]

theorem checkAndLock_fast_path_witness :
    checkAndLock storeCompleted "k" "tok" =
      (storeCompleted, dupRes "res-1", [.get (idempotencyKey "k") (some "res-1")]) :=
  checkAndLock_fast_path storeCompleted "k" "tok" "res-1" (some 86400000)
    (by decide) (by decide)

/-!
### Claim C5 — single bounded retry on contention
-/

/-- **C5, counterexample.** The re-read after the backoff wait does not
return `Duplicate` for every CompletionRecord that is now present: with the
lock held elsewhere and the completion record holding the empty string,
`!!checkAgain` is falsy, so `checkAndLock` returns `Contended` (no
`isDuplicate`, no result identifier) although the record is present. -/
theorem checkAndLock_contended_cex :
    storeLockedEmptyCompletion (idempotencyKey "k") = some ⟨"", some 9000⟩ ∧
    (storeLockedEmptyCompletion (lockKey "k")).isSome = true ∧
    (checkAndLock storeLockedEmptyCompletion "k" "tok").2.1 = contendedRes := by
  decide

/-- **C5 (amended).** If the lock is held by someone else (and no completion
record is stored), `checkAndLock` performs exactly: the fast-path read, the
failed `SET NX`, one `sleep(100)`, and one re-read — then returns; no
further lock attempt or read happens (the trace is exactly those four
operations, with result `Contended`).  Whatever the store holds when the
re-read runs (arbitrary `s2`), that single read decides the result: if the
CompletionRecord is now present with a non-empty value the result is
`Duplicate` of that value, otherwise (absent or empty) `Contended`, and the
machine is `done` either way. -/
theorem checkAndLock_contended (s : Store) (key tok : String)
    (hik : rget s (idempotencyKey key) = none)
    (hlk : (s (lockKey key)).isSome) :
    checkAndLock s key tok =
      (s, contendedRes,
        [.get (idempotencyKey key) none, .setNxPx (lockKey key) tok lockTtlMs false,
          .sleep 100, .get (idempotencyKey key) none]) ∧
    (∀ s2 v, rget s2 (idempotencyKey key) = some v → v ≠ "" →
      stepCAL key tok .recheck s2 =
        (.done (dupRes v), s2, [.get (idempotencyKey key) (some v)])) ∧
    (∀ s2, truthy (rget s2 (idempotencyKey key)) = false →
      stepCAL key tok .recheck s2 =
        (.done contendedRes, s2,
          [.get (idempotencyKey key) (rget s2 (idempotencyKey key))])) := by
  obtain ⟨e, he⟩ := Option.isSome_iff_exists.mp hlk
  refine ⟨?_, ?_, ?_⟩
  · simp [checkAndLock, hik, truthy, rsetNxPx, he, orUndefined, contendedRes]
  · intro s2 v hg hv
    simp [stepCAL, hg, truthy, hv, orUndefined, dupRes]
  · intro s2 h2
    simp [stepCAL, h2, orUndefined, contendedRes]

theorem checkAndLock_contended_witness :
    checkAndLock storeLockedB "k" "tok" =
      (storeLockedB, contendedRes,
        [.get (idempotencyKey "k") none, .setNxPx (lockKey "k") "tok" lockTtlMs false,
          .sleep 100, .get (idempotencyKey "k") none]) ∧
    stepCAL "k" "tok" .recheck storeCompleted =
      (.done (dupRes "res-1"), storeCompleted,
        [.get (idempotencyKey "k") (some "res-1")]) ∧
    stepCAL "k" "tok" .recheck storeEmptyCompletion =
      (.done contendedRes, storeEmptyCompletion,
        [.get (idempotencyKey "k") (some "")]) := by
  have h := checkAndLock_contended storeLockedB "k" "tok" (by decide) (by decide)
  exact ⟨h.1, h.2.1 storeCompleted "res-1" (by decide) (by decide),
    h.2.2 storeEmptyCompletion (by decide)⟩

/-!
### Claim C6 — double check releases and reports the duplicate
-/

/-- **C6, counterexample.** The double check does not release and report
`Duplicate` for every CompletionRecord it finds: with the completion record
holding the empty string and the lock held by this caller's own token,
`if (doubleCheck)` is falsy, so the machine keeps the lock (store unchanged,
no `evalCad`) and returns `LockAcquired` although the record is present. -/
theorem checkAndLock_doubleCheck_cex :
    storeEmptyCompletionLockedTok (idempotencyKey "k") = some ⟨"", some 9000⟩ ∧
    rget storeEmptyCompletionLockedTok (lockKey "k") = some "tok" ∧
    stepCAL "k" "tok" .doubleCheck storeEmptyCompletionLockedTok =
      (.done lockAcqRes, storeEmptyCompletionLockedTok,
        [.get (idempotencyKey "k") (some "")]) := by
  exact ⟨by decide, by decide, rfl⟩

/-- **C6 (amended).** If `checkAndLock` has acquired the lock (the lock
record holds its own token) and the double-check read then finds a
CompletionRecord with a non-empty value `v`, the machine releases the
just-acquired lock through the compare-and-delete script keyed on its own
token (the `evalCad` succeeds and the lock key becomes empty, everything
else untouched) and returns `Duplicate(v)` — not `LockAcquired`. -/
theorem checkAndLock_doubleCheck_releases (s : Store) (key tok v : String)
    (hik : rget s (idempotencyKey key) = some v) (hv : v ≠ "")
    (hlk : rget s (lockKey key) = some tok) :
    stepCAL key tok .doubleCheck s =
      (.releasing v, s, [.get (idempotencyKey key) (some v)]) ∧
    stepCAL key tok (.releasing v) s =
      (.done (dupRes v), rdel s (lockKey key), [.evalCad (lockKey key) tok true]) ∧
    rdel s (lockKey key) (lockKey key) = none ∧
    (∀ j, j ≠ lockKey key → rdel s (lockKey key) j = s j) ∧
    dupRes v ≠ lockAcqRes := by
  refine ⟨?_, ?_, ?_, ?_, ?_⟩
  · simp [stepCAL, hik, hv]
  · simp [stepCAL, releaseLock, cadScript, hlk, dupRes]
  · simp [rdel]
  · intro j hj
    simp [rdel, hj]
  · simp [dupRes, lockAcqRes]

theorem checkAndLock_doubleCheck_releases_witness :
    stepCAL "k" "tokA" .doubleCheck storeCompletedLockedA =
      (.releasing "res-1", storeCompletedLockedA,
        [.get (idempotencyKey "k") (some "res-1")]) ∧
    stepCAL "k" "tokA" (.releasing "res-1") storeCompletedLockedA =
      (.done (dupRes "res-1"), rdel storeCompletedLockedA (lockKey "k"),
        [.evalCad (lockKey "k") "tokA" true]) ∧
    rdel storeCompletedLockedA (lockKey "k") (lockKey "k") = none ∧
    rdel storeCompletedLockedA (lockKey "k") (idempotencyKey "k")
      = storeCompletedLockedA (idempotencyKey "k") ∧
    dupRes "res-1" ≠ lockAcqRes := by
  have h := checkAndLock_doubleCheck_releases storeCompletedLockedA "k" "tokA" "res-1"
    (by decide) (by decide) (by decide)
  exact ⟨h.1, h.2.1, h.2.2.1, h.2.2.2.1 _ (idempotencyKey_ne_lockKey "k"), h.2.2.2.2⟩

/-!
### Claim C3 — acquisition on a fresh key
-/

/-- Full evaluation of `checkAndLock` on a fresh key (no completion record,
no lock record): the lock is written with the generated value and the lock
TTL, and the call returns `{ isDuplicate: false, lockAcquired: true }`. -/
theorem checkAndLock_fresh_eval (s : Store) (key tok : String)
    (hik : s (idempotencyKey key) = none) (hlk : s (lockKey key) = none) :
    checkAndLock s key tok =
      ((fun j => if j = lockKey key then some ⟨tok, some lockTtlMs⟩ else s j),
        lockAcqRes,
        [.get (idempotencyKey key) none, .setNxPx (lockKey key) tok lockTtlMs true,
          .get (idempotencyKey key) none]) := by
  have hne := idempotencyKey_ne_lockKey key
  simp [checkAndLock, rget, hik, hlk, truthy, rsetNxPx, hne, lockAcqRes]

/-- **C3, counterexample.** The result of a successful `checkAndLock` does
not carry the lock token: two runs on a fresh key that store two different
tokens in the lock record return the very same `IdempotencyResult` (the
interface has no token field), so the caller cannot receive "the token that
proves its ownership". -/
theorem checkAndLock_no_token_cex :
    "tokA" ≠ "tokB" ∧
    rget (checkAndLock emptyStore "k" "tokA").1 (lockKey "k") = some "tokA" ∧
    rget (checkAndLock emptyStore "k" "tokB").1 (lockKey "k") = some "tokB" ∧
    (checkAndLock emptyStore "k" "tokA").2.1 = (checkAndLock emptyStore "k" "tokB").2.1 := by
  decide

/-- **C3 (amended).** For every key with no CompletionRecord and no existing
LockRecord, `checkAndLock` acquires: it stores the generated lock token under
the lock key (with the lock TTL) and returns
`{ isDuplicate: false, lockAcquired: true }` — but the returned result does
not include the token (it is the same for every generated token). -/
theorem checkAndLock_fresh_acquires (s : Store) (key tok : String)
    (hik : s (idempotencyKey key) = none) (hlk : s (lockKey key) = none) :
    (checkAndLock s key tok).2.1 = lockAcqRes ∧
    (checkAndLock s key tok).1 (lockKey key) = some ⟨tok, some lockTtlMs⟩ ∧
    ∀ tok2, (checkAndLock s key tok2).2.1 = (checkAndLock s key tok).2.1 := by
  refine ⟨?_, ?_, ?_⟩
  · rw [checkAndLock_fresh_eval s key tok hik hlk]
  · rw [checkAndLock_fresh_eval s key tok hik hlk]
    simp
  · intro tok2
    rw [checkAndLock_fresh_eval s key tok hik hlk,
      checkAndLock_fresh_eval s key tok2 hik hlk]

theorem checkAndLock_fresh_acquires_witness :
    (checkAndLock emptyStore "k" "tok").2.1 = lockAcqRes ∧
    (checkAndLock emptyStore "k" "tok").1 (lockKey "k") = some ⟨"tok", some lockTtlMs⟩ ∧
    (checkAndLock emptyStore "k" "other").2.1 = (checkAndLock emptyStore "k" "tok").2.1 := by
  have h := checkAndLock_fresh_acquires emptyStore "k" "tok" rfl rfl
  exact ⟨h.1, h.2.1, h.2.2 "other"⟩

/-!
### Claim C10 — result shape invariants
-/

/-- **C10.** Every result of `checkAndLock` satisfies: `isDuplicate` and
`lockAcquired` are never both true; when `isDuplicate` is true the result
carries the stored completion value; when `lockAcquired: true` there is no
`existingReservationId`.  The final conjunct covers the concurrent
double-check path of the machine: a `Duplicate` produced through the release
path carries exactly the completion value stored at the moment of the
double-check read. -/
theorem checkAndLock_result_invariants (s : Store) (key tok : String) :
    (¬ ((checkAndLock s key tok).2.1.isDuplicate = true ∧
        (checkAndLock s key tok).2.1.lockAcquired = some true)) ∧
    ((checkAndLock s key tok).2.1.isDuplicate = true →
      (checkAndLock s key tok).2.1.existingReservationId = rget s (idempotencyKey key)) ∧
    ((checkAndLock s key tok).2.1.lockAcquired = some true →
      (checkAndLock s key tok).2.1.existingReservationId = none) ∧
    (∀ s2 v, (stepCAL key tok .doubleCheck s2).1 = .releasing v →
      rget s2 (idempotencyKey key) = some v ∧
      (stepCAL key tok (.releasing v) s2).1 = .done (dupRes v) ∧
      ¬ ((dupRes v).isDuplicate = true ∧ (dupRes v).lockAcquired = some true)) := by
  have hne := idempotencyKey_ne_lockKey key
  refine ⟨?_, ?_, ?_, ?_⟩
  · by_cases h1 : truthy (rget s (idempotencyKey key))
    · simp [checkAndLock, h1]
    · have h1f : truthy (Option.map Entry.value (s (idempotencyKey key))) = false := by
        simpa [rget] using h1
      rcases hl : s (lockKey key) with _ | e
      · simp [checkAndLock, h1, rsetNxPx, hl, rget, hne, h1f]
      · simp [checkAndLock, h1, rsetNxPx, hl]
  · by_cases h1 : truthy (rget s (idempotencyKey key))
    · simp [checkAndLock, h1]
    · have h1f : truthy (Option.map Entry.value (s (idempotencyKey key))) = false := by
        simpa [rget] using h1
      rcases hl : s (lockKey key) with _ | e
      · simp [checkAndLock, h1, rsetNxPx, hl, rget, hne, h1f]
      · simp only [checkAndLock, h1, if_false, Bool.false_eq_true]
        simp [rsetNxPx, hl, h1, orUndefined]
  · by_cases h1 : truthy (rget s (idempotencyKey key))
    · simp [checkAndLock, h1]
    · have h1f : truthy (Option.map Entry.value (s (idempotencyKey key))) = false := by
        simpa [rget] using h1
      rcases hl : s (lockKey key) with _ | e
      · simp [checkAndLock, h1, rsetNxPx, hl, rget, hne, h1f]
      · simp [checkAndLock, h1, rsetNxPx, hl]
  · intro s2 v hrel
    rcases hg : rget s2 (idempotencyKey key) with _ | w
    · simp [stepCAL, hg] at hrel
    · by_cases hw : w = ""
      · subst hw
        simp [stepCAL, hg] at hrel
      · simp [stepCAL, hg, hw] at hrel
        subst hrel
        refine ⟨rfl, ?_, by simp [dupRes]⟩
        simp [stepCAL, dupRes]

theorem checkAndLock_result_invariants_witness :
    (¬ ((checkAndLock storeCompleted "k" "tok").2.1.isDuplicate = true ∧
        (checkAndLock storeCompleted "k" "tok").2.1.lockAcquired = some true)) ∧
    (checkAndLock storeCompleted "k" "tok").2.1.existingReservationId
      = rget storeCompleted (idempotencyKey "k") ∧
    rget storeCompletedLockedA (idempotencyKey "k") = some "res-1" := by
  have h := checkAndLock_result_invariants storeCompleted "k" "tok"
  have h2 := (checkAndLock_result_invariants storeCompletedLockedA "k" "tokA").2.2.2
    storeCompletedLockedA "res-1" (by decide)
  exact ⟨h.1, h.2.1 (by decide), h2.1⟩

/-!
### Claim C8 — the compare-and-delete release
-/

/-- **C8.** The `releaseLock` compare-and-delete (one atomic script
execution) reports success exactly when the stored value equals the supplied
token; on success it removes exactly the lock key and nothing else; on
mismatch (or absence) it leaves the whole store untouched, so a lock held
under a different token remains intact. -/
theorem releaseLock_cad (s : Store) (k v : String) :
    ((releaseLock s k v).2 = true ↔ rget s k = some v) ∧
    ((releaseLock s k v).2 = true →
      (releaseLock s k v).1 k = none ∧
      ∀ j, j ≠ k → (releaseLock s k v).1 j = s j) ∧
    ((releaseLock s k v).2 = false → (releaseLock s k v).1 = s) ∧
    (∀ e, s k = some e → e.value ≠ v → (releaseLock s k v).1 k = some e) := by
  by_cases h : rget s k = some v
  · refine ⟨by simp [releaseLock, cadScript, h], ?_, ?_, ?_⟩
    · intro _
      constructor
      · simp [releaseLock, cadScript, h, rdel]
      · intro j hj
        simp [releaseLock, cadScript, h, rdel, hj]
    · simp [releaseLock, cadScript, h]
    · intro e he hev
      exact absurd (by simpa [rget, he] using h) hev
  · refine ⟨by simp [releaseLock, cadScript, h], ?_, ?_, ?_⟩
    · simp [releaseLock, cadScript, h]
    · intro _
      simp [releaseLock, cadScript, h]
    · intro e he _
      simp [releaseLock, cadScript, h, he]

theorem releaseLock_cad_witness :
    (releaseLock storeLockedB (lockKey "k") "B").2 = true ∧
    (releaseLock storeLockedB (lockKey "k") "B").1 (lockKey "k") = none ∧
    (releaseLock storeLockedB (lockKey "k") "A").1 (lockKey "k")
      = some ⟨"B", some 5000⟩ := by
  have h1 := (releaseLock_cad storeLockedB (lockKey "k") "B").1.mpr (by decide)
  have h2 := ((releaseLock_cad storeLockedB (lockKey "k") "B").2.1 h1).1
  have h3 := (releaseLock_cad storeLockedB (lockKey "k") "A").2.2.2
    ⟨"B", some 5000⟩ (by decide) (by decide)
  exact ⟨h1, h2, h3⟩

/-!
### Claim C4 — confirm writes then deletes; failure keeps the lock
-/

/-- **C4.** When both store commands succeed, `confirmReservation` writes the
completion record with the configured TTL and then deletes the lock record
unconditionally (whatever it held).  When the completion write fails, the
error propagates and the store — in particular the lock record — is
untouched. -/
theorem confirmReservation_spec (ttl : Nat) (s : Store) (key rid : String) (d : Bool) :
    (confirmReservation ttl s key rid true true).isOk = true ∧
    (confirmReservation ttl s key rid true true).store (idempotencyKey key)
      = some ⟨rid, some (ttl * 1000)⟩ ∧
    (confirmReservation ttl s key rid true true).store (lockKey key) = none ∧
    (confirmReservation ttl s key rid false d).isOk = false ∧
    (confirmReservation ttl s key rid false d).store = s := by
  have hne := idempotencyKey_ne_lockKey key
  refine ⟨rfl, ?_, ?_, rfl, rfl⟩
  · simp [confirmReservation, StoreOutcome.store, rsetex, rdel, hne]
  · simp [confirmReservation, StoreOutcome.store, rdel]

/-!
### Claim C2 — rollback
-/

/-- **C2, counterexample.** `rollbackLock` is not a token-guarded
compare-and-delete: it takes no token at all and removes a lock held under
token `B` unconditionally, where the claim requires a mismatching token to
leave the store unchanged. -/
theorem rollbackLock_no_compare_cex :
    storeLockedB (lockKey "k") = some ⟨"B", some 5000⟩ ∧
    rollbackLock storeLockedB "k" (lockKey "k") = none := by
  decide

/-- **C2 (amended).** `rollbackLock(key)` deletes the LockRecord
unconditionally with a plain `DEL` — no token is supplied or compared, so
any holder's lock is removed — and writes no CompletionRecord (every other
key, in particular the completion key, is untouched). -/
theorem rollbackLock_spec (s : Store) (key : String) :
    rollbackLock s key (lockKey key) = none ∧
    ∀ j, j ≠ lockKey key → rollbackLock s key j = s j := by
  constructor
  · simp [rollbackLock, rdel]
  · intro j hj
    simp [rollbackLock, rdel, hj]

theorem rollbackLock_spec_witness :
    rollbackLock storeLockedB "k" (lockKey "k") = none ∧
    rollbackLock storeLockedB "k" (idempotencyKey "k")
      = storeLockedB (idempotencyKey "k") :=
  ⟨(rollbackLock_spec storeLockedB "k").1,
    (rollbackLock_spec storeLockedB "k").2 _ (idempotencyKey_ne_lockKey "k")⟩

/-!
### Claim C9 — key namespacing
-/

/-- **C9, counterexample.** Completion records are not namespaced under
`completion:<k>`: confirming key `k` writes nothing at `completion:k` and
stores the completion record at `reservation_key:k` instead. -/
theorem completion_namespacing_cex :
    (confirmReservation 86400 emptyStore "k" "r7" true true).store
      ("completion:" ++ "k") = none ∧
    (confirmReservation 86400 emptyStore "k" "r7" true true).store
      ("reservation_key:" ++ "k") = some ⟨"r7", some (86400 * 1000)⟩ := by
  decide

/-- **C9 (amended).** For every idempotency key `k`, the store keys read and
written by the coordinator are namespaced `reservation_key:k` for
CompletionRecords and `lock:k` for LockRecords: every other key is untouched
by `checkAndLock`, `confirmReservation` and `rollbackLock`, the confirmed
completion record lands at `reservation_key:k`, and the rollback delete hits
`lock:k`. -/
theorem key_namespacing (s : Store) (key tok rid : String) (ttl : Nat) (o1 o2 : Bool)
    (j : String) (hj1 : j ≠ "reservation_key:" ++ key) (hj2 : j ≠ "lock:" ++ key) :
    (checkAndLock s key tok).1 j = s j ∧
    (confirmReservation ttl s key rid o1 o2).store j = s j ∧
    rollbackLock s key j = s j ∧
    (confirmReservation ttl s key rid true true).store ("reservation_key:" ++ key)
      = some ⟨rid, some (ttl * 1000)⟩ ∧
    rollbackLock s key ("lock:" ++ key) = none := by
  have hj1i : j ≠ idempotencyKey key := hj1
  have hj2l : j ≠ lockKey key := hj2
  have hne := idempotencyKey_ne_lockKey key
  refine ⟨?_, ?_, ?_, ?_, ?_⟩
  · by_cases h1 : truthy (rget s (idempotencyKey key))
    · simp [checkAndLock, h1]
    · rcases hl : s (lockKey key) with _ | e
      · have hupd : rget
            (fun j2 => if j2 = lockKey key then some (⟨tok, some lockTtlMs⟩ : Entry) else s j2)
            (idempotencyKey key) = rget s (idempotencyKey key) := by
          simp [rget, hne]
        simp [checkAndLock, h1, rsetNxPx, hl, hupd, hj2l]
      · simp [checkAndLock, h1, rsetNxPx, hl]
  · rcases o1 <;> rcases o2 <;>
      simp [confirmReservation, StoreOutcome.store, rsetex, rdel, hj1i, hj2l]
  · simp [rollbackLock, rdel, hj2l]
  · have hne2 : ("reservation_key:" ++ key : String) ≠ "lock:" ++ key := hne
    simp [confirmReservation, StoreOutcome.store, rsetex, rdel, idempotencyKey,
      lockKey, hne2]
  · simp [rollbackLock, rdel, lockKey]

/-!
### Agreement of the two embeddings
-/

/-- Running the small-step machine from `start` without interference computes
exactly the sequential `checkAndLock`: same result, same final store, same
operation trace. -/
theorem runCAL_eq_checkAndLock (s : Store) (key tok : String) :
    runCAL key tok 5 .start s =
      (.done (checkAndLock s key tok).2.1, (checkAndLock s key tok).1,
        (checkAndLock s key tok).2.2) := by
  have hne := idempotencyKey_ne_lockKey key
  by_cases h1 : truthy (rget s (idempotencyKey key))
  · simp [runCAL, stepCAL, checkAndLock, h1]
  · have h1f : truthy (rget s (idempotencyKey key)) = false := by simpa using h1
    rcases hl : s (lockKey key) with _ | e
    · have hupd : rget
          (fun j2 => if j2 = lockKey key then some (⟨tok, some lockTtlMs⟩ : Entry) else s j2)
          (idempotencyKey key) = rget s (idempotencyKey key) := by
        simp [rget, hne]
      rcases hg : rget s (idempotencyKey key) with _ | v
      · simp [runCAL, stepCAL, checkAndLock, h1f, rsetNxPx, hl, hupd, hg, truthy]
      · have hv : v = "" := by
          simpa [truthy, hg] using h1f
        subst hv
        simp [runCAL, stepCAL, checkAndLock, h1f, rsetNxPx, hl, hupd, hg, truthy]
    · simp [runCAL, stepCAL, checkAndLock, h1f, rsetNxPx, hl, orUndefined]

theorem key_namespacing_witness :
    (checkAndLock storeCompleted "k" "tok").1 "other" = storeCompleted "other" ∧
    (confirmReservation 86400 storeCompleted "k" "r7" true true).store "other"
      = storeCompleted "other" ∧
    rollbackLock storeCompleted "k" "other" = storeCompleted "other" ∧
    (confirmReservation 86400 storeCompleted "k" "r7" true true).store
      ("reservation_key:" ++ "k") = some ⟨"r7", some (86400 * 1000)⟩ ∧
    rollbackLock storeCompleted "k" ("lock:" ++ "k") = none :=
  key_namespacing storeCompleted "k" "tok" "r7" 86400 true true "other"
    (by decide) (by decide)

end MsYa
